import Mathlib

/-!
Shallow embedding of the baserow backend fragments under verification:
number field model and validation (`fields/models.py`, `fields/field_types.py`),
the core registry (`core/registry.py`), the physical column naming of fields,
and the row ordering / include-exclude helpers of the row handler (whose
implementation is absent from the sources; those parts are modelled from the
specification, pinned by the repository's test suite).

Python `Decimal` values are embedded as explicit scaled integers
`Dec.mk m e` denoting `m / 10^e`; every int, decimal string and IEEE double
is a finite decimal, so this embedding is exact.
-/

deriving instance DecidableEq for Except

namespace Baserow

/-- An exact finite decimal `m / 10 ^ e`, the embedding of Python `Decimal`
(and of the exact value of any Python int or float). -/
structure Dec where
  m : Int
  e : Nat
deriving DecidableEq, Repr

/-- The rational value denoted by a `Dec`. -/
def Dec.toRat (d : Dec) : ℚ := (d.m : ℚ) / (10 : ℚ) ^ d.e

/-- The embedding of Python values reaching `prepare_value_for_db`:
`none` is Python `None`, `int` an int, `float` a float (carried by the exact
decimal value of the IEEE double), `str` a string, `dec` a `Decimal`. -/
inductive PyValue where
  | none
  | int (z : Int)
  | float (d : Dec)
  | str (s : String)
  | dec (d : Dec)
deriving DecidableEq, Repr

/-- Python truthiness of such a value (`bool(value)`). -/
def PyValue.truthy : PyValue → Bool
  | .none => false
  | .int z => z ≠ 0
  | .float d => d.m ≠ 0
  | .str s => s ≠ ""
  | .dec d => d.m ≠ 0

/-- Splits a character list at every occurrence of `sep`
(the embedding of Python `str.split`). -/
def splitOnChar (sep : Char) : List Char → List (List Char)
  | [] => [[]]
  | c :: rest =>
    match splitOnChar sep rest with
    | [] => [[]]
    | g :: gs => if c = sep then [] :: g :: gs else (c :: g) :: gs

/-- Decimal digit characters to the natural number they denote. -/
def charsToNat (l : List Char) : Nat :=
  l.foldl (fun a c => 10 * a + (c.toNat - 48)) 0

/-- Parses a plain decimal string `[-|+]digits[.digits]` to its exact value,
the embedding of `Decimal(str)` on the inputs the code exercises. -/
def parseDecimalChars (l : List Char) : Option Dec :=
  let core : List Char → Option Dec := fun rest =>
    match splitOnChar '.' rest with
    | [ip] =>
      if ip ≠ [] ∧ ip.all Char.isDigit then some ⟨charsToNat ip, 0⟩ else Option.none
    | [ip, fp] =>
      if ip ++ fp ≠ [] ∧ (ip ++ fp).all Char.isDigit then
        some ⟨charsToNat (ip ++ fp), fp.length⟩
      else Option.none
    | _ => Option.none
  match l with
  | '-' :: rest => (core rest).map (fun d => ⟨-d.m, d.e⟩)
  | '+' :: rest => core rest
  | rest => core rest

/-- Errors a Python-level call can signal in this fragment. -/
inductive PyErr where
  | validationError (msg : String)
  | typeError
  | invalidOperation
deriving DecidableEq, Repr

/-- The embedding of `Decimal(value)` (exact conversion; `Decimal(None)` is a
`TypeError`, an unparsable string an `InvalidOperation`). -/
def pyDecimal : PyValue → Except PyErr Dec
  | .none => .error .typeError
  | .int z => .ok ⟨z, 0⟩
  | .float d => .ok d
  | .dec d => .ok d
  | .str s =>
    match parseDecimalChars s.data with
    | some d => .ok d
    | Option.none => .error .invalidOperation

/-- The embedding of Python `value < 0` (comparing a string with an int is a
`TypeError`; `None` never reaches the comparison in the code). -/
def pyLtZero : PyValue → Except PyErr Bool
  | .none => .error .typeError
  | .int z => .ok (z < 0)
  | .float d => .ok (d.m < 0)
  | .dec d => .ok (d.m < 0)
  | .str _ => .error .typeError

/-! ### fields/models.py -/

def NUMBER_TYPE_INTEGER : String := "INTEGER"

def NUMBER_TYPE_DECIMAL : String := "DECIMAL"

/-- `NUMBER_TYPE_CHOICES` from `fields/models.py`: (stored value, label) pairs. -/
def NUMBER_TYPE_CHOICES : List (String × String) :=
  [("INTEGER", "Integer"), ("DECIMAL", "Decimal")]

/-- `NUMBER_DECIMAL_PLACES_CHOICES` from `fields/models.py`. -/
def NUMBER_DECIMAL_PLACES_CHOICES : List (Int × String) :=
  [(1, "1.0"), (2, "1.00"), (3, "1.000"), (4, "1.0000"), (5, "1.00000")]

/-- The `NumberField` model: its id plus the type-specific options declared in
`fields/models.py` (`number_type` a string column, `number_decimal_places` an
integer column, `number_negative` a boolean column). -/
structure NumberField where
  id : Nat
  number_type : String
  number_decimal_places : Int
  number_negative : Bool
deriving DecidableEq, Repr

/-- Outcome of `NumberField.save`: either the persisted field or the
`ValueError` message. -/
def NumberField.save (f : NumberField) : Except String NumberField :=
  if ¬ (NUMBER_TYPE_CHOICES.any fun t => f.number_type = t.1 ∨ f.number_type = t.2) then
    .error (f.number_type ++ " is not a valid choice.")
  else if ¬ (NUMBER_DECIMAL_PLACES_CHOICES.any fun t => f.number_decimal_places = t.1) then
    .error "number_decimal_places is not a valid choice."
  else .ok f

/-! ### fields/field_types.py, NumberFieldType -/

/-- The `ValidationError` message raised for a negative value
(`f-string` in `NumberFieldType.prepare_value_for_db`). -/
def negativeMsg (id : Nat) : String :=
  "The value for field " ++ Nat.repr id ++ " cannot be negative."

/-- `NumberFieldType.prepare_value_for_db`: coerces truthy values of decimal
fields through `Decimal`, then rejects truthy negative values when
`number_negative` is unset. -/
def prepare_value_for_db (inst : NumberField) (value : PyValue) :
    Except PyErr PyValue :=
  let step1 : Except PyErr PyValue :=
    if value.truthy = true ∧ inst.number_type = NUMBER_TYPE_DECIMAL then
      match pyDecimal value with
      | .ok d => .ok (.dec d)
      | .error e => .error e
    else .ok value
  match step1 with
  | .error e => .error e
  | .ok v =>
    if v.truthy = true ∧ inst.number_negative = false then
      match pyLtZero v with
      | .ok true => .error (.validationError (negativeMsg inst.id))
      | .ok false => .ok v
      | .error e => .error e
    else .ok v

/-- `NumberFieldType.after_update`: when the column type was not altered and
`number_negative` flipped from true to false, every stored value below zero in
the field's column is updated to 0 (`NULL` cells are untouched, as the SQL
filter `field_<id> < 0` does not match them). -/
def after_update (field old_field : NumberField) (altered_column : Bool)
    (column : List (Option Dec)) : List (Option Dec) :=
  if altered_column = false ∧ field.number_negative = false ∧
      old_field.number_negative = true then
    column.map fun v =>
      match v with
      | some d => if d.m < 0 then some ⟨0, 0⟩ else some d
      | Option.none => Option.none
  else column

/-- Modelled from the spec: persistence of a validated number value into the
physical column (the Django ORM / storage layer is absent from the sources).
A `DECIMAL` column stores the value quantized to `number_decimal_places`
fractional digits with round-half-even; an `INTEGER` column stores the integer
unchanged; `None` is stored as SQL `NULL`. -/
def quantize_half_even (d : Dec) (places : Nat) : Dec :=
  if d.e ≤ places then ⟨d.m * 10 ^ (places - d.e), places⟩
  else
    let div : Int := 10 ^ (d.e - places)
    let q : Int := Int.fdiv d.m div
    let r : Int := d.m - q * div
    let rounded : Int :=
      if 2 * r < div then q
      else if div < 2 * r then q + 1
      else if q % 2 = 0 then q else q + 1
    ⟨rounded, places⟩

/-- Modelled from the spec: the per-field part of `RowHandler.create_row`
(absent from the sources) — the raw value is validated and coerced by
`prepare_value_for_db`, a `ValidationError` aborts the operation with nothing
persisted, and otherwise the value is persisted into the physical column. -/
def create_row_number_value (f : NumberField) (value : PyValue) :
    Except PyErr (Option Dec) :=
  match prepare_value_for_db f value with
  | .error e => .error e
  | .ok v =>
    match v with
    | .none => .ok Option.none
    | .int z =>
      if f.number_type = NUMBER_TYPE_DECIMAL then
        .ok (some (quantize_half_even ⟨z, 0⟩ f.number_decimal_places.toNat))
      else .ok (some ⟨z, 0⟩)
    | .float d =>
      if f.number_type = NUMBER_TYPE_DECIMAL then
        .ok (some (quantize_half_even d f.number_decimal_places.toNat))
      else .error .typeError
    | .dec d =>
      if f.number_type = NUMBER_TYPE_DECIMAL then
        .ok (some (quantize_half_even d f.number_decimal_places.toNat))
      else .error .typeError
    | .str _ => .error .typeError

/-! ### core/registry.py -/

/-- A registrable instance (`Instance` in `core/registry.py`): its unique type
tag plus a payload discriminator standing for the rest of the object. -/
structure RegInstance where
  type : String
  uid : Nat
deriving DecidableEq, Repr

/-- The two registry exceptions from `core/exceptions.py`. -/
inductive RegistryError where
  | doesNotExist
  | alreadyRegistered
deriving DecidableEq, Repr

/-- The registry state: the `self.registry` dict, embedded as an association
list keyed by type tag (keys are unique because `register` refuses
duplicates). -/
structure Registry where
  registry : List (String × RegInstance)
deriving DecidableEq, Repr

/-- `Registry.get`: look up a registered instance by type tag. -/
def Registry.get (r : Registry) (type_name : String) :
    Except RegistryError RegInstance :=
  match r.registry.lookup type_name with
  | some i => .ok i
  | Option.none => .error .doesNotExist

/-- `Registry.register`: add an instance keyed by its type tag, refusing a tag
that is already present (the registry is returned unchanged only through the
error branch, i.e. nothing is inserted). -/
def Registry.register (r : Registry) (inst : RegInstance) :
    Except RegistryError Registry :=
  if (r.registry.lookup inst.type).isSome then .error .alreadyRegistered
  else .ok ⟨r.registry ++ [(inst.type, inst)]⟩

/-! ### Field.db_column (fields/models.py) -/

/-- Decimal rendering of a natural number (the digits of Python `str(id)`). -/
def decimalChars (n : Nat) : List Char :=
  if n = 0 then ['0'] else ((Nat.digits 10 n).map Nat.digitChar).reverse

/-- A generic `Field` row from `fields/models.py`: id, owning table, display
name and the polymorphic content-type discriminator selecting its field type. -/
structure Field where
  id : Nat
  table_id : Nat
  name : String
  content_type : String
deriving DecidableEq, Repr

/-- `Field.db_column`: the physical column name `field_<id>`. -/
def Field.db_column (f : Field) : String :=
  ⟨"field_".data ++ decimalChars f.id⟩

/-! ### Row ordering (RowHandler / OrderingEngine)

Modelled from the spec: §4.4 OrderingEngine `append` / `insertBefore`
(`RowHandler.create_row` is absent from the sources). Where the spec's prose
conflicts with the repository's own tests
(`tests/baserow/contrib/database/rows/test_rows_handler.py`), the concrete
order values the tests assert are authoritative. Orders are decimals at a
fixed scale of 20 fractional digits, embedded as integer counts of
`10 ^ (-20)` units; a table is the list of its rows' orders. -/

/-- One whole order unit: `1.00000000000000000000` at scale 20. -/
def orderUnit : Int := 10 ^ 20

/-- `floor` of a scale-20 decimal, as an integral multiple of `orderUnit`. -/
def floorUnit (n : Int) : Int := orderUnit * Int.fdiv n orderUnit

/-- `ceil` of a scale-20 decimal, as an integral multiple of `orderUnit`. -/
def ceilUnit (n : Int) : Int := -floorUnit (-n)

/-- The `Max('order')` aggregate over the table, `0` for an empty table. -/
def max_order (rows : List Int) : Int := rows.foldr max 0

/-- `append`: the new row's order is `ceil(max(order)) + 1` (`1` on an empty
table), as pinned by `test_create_row` (orders `1`, `2`, and `3.000…0` right
after the maximum became `1.999…9`). -/
def append_order (rows : List Int) : Int := ceilUnit (max_order rows) + orderUnit

/-- The new order computed by `insertBefore`: one unit in the last place below
the target's order. -/
def insert_before_new_order (target : Int) : Int := target - 1

/-- The shift `insertBefore` applies to an existing row: rows strictly above
`floor(new_order)` and at most `new_order` are pushed down one unit in the
last place. -/
def insert_before_shift (newOrder r : Int) : Int :=
  if floorUnit newOrder < r ∧ r ≤ newOrder then r - 1 else r

/-- `insertBefore` on the whole table: shift the clashing rows down and insert
the new row at `target - 10 ^ (-20)` (appended at the end of the list). -/
def insert_before_table (rows : List Int) (target : Int) : List Int :=
  rows.map (insert_before_shift (insert_before_new_order target)) ++
    [insert_before_new_order target]

/-- `n` successive `insertBefore` operations aimed at the same target order. -/
def insert_before_iter (rows : List Int) (target : Int) : Nat → List Int
  | 0 => rows
  | n + 1 => insert_before_table (insert_before_iter rows target n) target

/-! ### Include/exclude field filtering (RowHandler)

Modelled from the spec: §4.5 include/exclude field filtering
(`RowHandler.get_include_exclude_fields` and
`RowHandler.extract_field_ids_from_string` are absent from the sources), with
the token extraction pinned by `test_extract_field_ids_from_string` (each
comma-separated token keeps only its digit characters; tokens without a digit
are dropped) and the filtering pinned by `test_get_include_exclude_fields`. -/

/-- Whether an optional comma-separated parameter is missing or empty
(Python `not value`). -/
def emptyParam (v : Option String) : Bool :=
  match v with
  | Option.none => true
  | some s => s = ""

/-- `RowHandler.extract_field_ids_from_string`: the numeric ids contained in a
comma-separated token string; a token contributes the number formed by its
digit characters, tokens without any digit are dropped. -/
def extract_field_ids_from_string (value : Option String) : List Nat :=
  match value with
  | Option.none => []
  | some s =>
    if s = "" then []
    else
      (splitOnChar ',' s.data).filterMap fun tok =>
        let ds := tok.filter Char.isDigit
        if ds = [] then Option.none else some (charsToNat ds)

/-- `RowHandler.get_include_exclude_fields`: `none` (no restriction) when both
parameters are missing or empty; otherwise the table's own fields restricted
to the include ids (all of them when `include` is empty) with the exclude ids
then removed. Ids that match no field of the table are silently dropped. -/
def get_include_exclude_fields (table_fields : List Field)
    (inc exc : Option String) : Option (List Field) :=
  if emptyParam inc = true ∧ emptyParam exc = true then Option.none
  else
    let inc_ids := extract_field_ids_from_string inc
    let exc_ids := extract_field_ids_from_string exc
    let base :=
      if emptyParam inc = true then table_fields
      else table_fields.filter fun f => f.id ∈ inc_ids
    some (base.filter fun f => f.id ∉ exc_ids)

/-- The numeric value carried by a `PyValue`, when it is a number. -/
def PyValue.ratVal : PyValue → Option ℚ
  | .int z => some (z : ℚ)
  | .float d => some d.toRat
  | .dec d => some d.toRat
  | _ => Option.none

/-! ## Theorems -/

/-- C3: for every number field with `number_negative = false`, a negative
input value (int or `Decimal`) makes `prepare_value_for_db` raise a
`ValidationError` whose message names the offending field's id; with
`number_negative = true` the same negative value is accepted and returned
(numerically unchanged) without error. -/
theorem prepare_value_rejects_negative (f : NumberField) (z : Int) (d : Dec)
    (hz : z < 0) (hd : d.m < 0) :
    (f.number_negative = false →
      prepare_value_for_db f (.int z) = .error (.validationError (negativeMsg f.id)) ∧
      prepare_value_for_db f (.dec d) = .error (.validationError (negativeMsg f.id)) ∧
      ∃ s t, negativeMsg f.id = s ++ Nat.repr f.id ++ t) ∧
    (f.number_negative = true →
      (∃ v, prepare_value_for_db f (.int z) = .ok v ∧ v.ratVal = some (z : ℚ)) ∧
      (∃ v, prepare_value_for_db f (.dec d) = .ok v ∧ v.ratVal = some d.toRat)) := by
  have hz0 : z ≠ 0 := hz.ne
  have hd0 : d.m ≠ 0 := hd.ne
  constructor
  · intro hneg
    refine ⟨?_, ?_, "The value for field ", " cannot be negative.", rfl⟩
    · by_cases htype : f.number_type = NUMBER_TYPE_DECIMAL <;>
        simp [prepare_value_for_db, PyValue.truthy, pyDecimal, pyLtZero,
          htype, hneg, hz, hz0, hd, hd0]
    · by_cases htype : f.number_type = NUMBER_TYPE_DECIMAL <;>
        simp [prepare_value_for_db, PyValue.truthy, pyDecimal, pyLtZero,
          htype, hneg, hz, hz0, hd, hd0]
  · intro hneg
    constructor
    · by_cases htype : f.number_type = NUMBER_TYPE_DECIMAL
      · exact ⟨.dec ⟨z, 0⟩, by
          simp [prepare_value_for_db, PyValue.truthy, pyDecimal, htype, hneg, hz0], by
          simp [PyValue.ratVal, Dec.toRat]⟩
      · exact ⟨.int z, by
          simp [prepare_value_for_db, PyValue.truthy, htype, hneg, hz0], rfl⟩
    · by_cases htype : f.number_type = NUMBER_TYPE_DECIMAL
      · exact ⟨.dec d, by
          simp [prepare_value_for_db, PyValue.truthy, pyDecimal, htype, hneg, hd0], rfl⟩
      · exact ⟨.dec d, by
          simp [prepare_value_for_db, PyValue.truthy, htype, hneg, hd0], rfl⟩

/-- Witness for C3 at the `Price` field of `test_create_row` (id 3, decimal,
non-negative) and the value `-5`. -/
theorem prepare_value_rejects_negative_witness :
    (-5 : Int) < 0 ∧
    prepare_value_for_db ⟨3, "DECIMAL", 2, false⟩ (.int (-5)) =
      .error (.validationError (negativeMsg 3)) :=
  ⟨by decide,
    ((prepare_value_rejects_negative ⟨3, "DECIMAL", 2, false⟩ (-5) ⟨-5, 0⟩
      (by decide) (by decide)).1 rfl).1⟩

/-- C9: `prepare_value_for_db` returns falsy inputs (`None`, `0`, the empty
string, `Decimal(0)`) unchanged — no coercion and no negativity check, so `0`
passes even with `number_negative = false` — and for an `INTEGER` field every
successful result is the input itself, with no `Decimal` coercion. -/
theorem prepare_value_falsy_and_integer (f : NumberField) (v : PyValue) :
    (v.truthy = false → prepare_value_for_db f v = .ok v) ∧
    (f.number_type = NUMBER_TYPE_INTEGER →
      ∀ r, prepare_value_for_db f v = .ok r → r = v) := by
  constructor
  · intro hfalsy
    simp [prepare_value_for_db, hfalsy]
  · intro htype r
    have hne : f.number_type ≠ NUMBER_TYPE_DECIMAL := by
      rw [htype]; decide
    rcases hlt : pyLtZero v with e | b
    · simp [prepare_value_for_db, hne, hlt]
      split_ifs <;> simp_all
    · cases b with
      | false =>
        simp [prepare_value_for_db, hne, hlt]
        exact fun h => h.symm
      | true =>
        simp [prepare_value_for_db, hne, hlt]
        split_ifs <;> simp_all

/-- Witness for C9: on the non-negative decimal `Price` field, the falsy
values `None`, `0` and `""` pass through unchanged, and on the `INTEGER`
`Max speed` field a successful result equals the input. -/
theorem prepare_value_falsy_and_integer_witness :
    ((PyValue.int 0).truthy = false ∧
      prepare_value_for_db ⟨3, "DECIMAL", 2, false⟩ (.int 0) = .ok (.int 0)) ∧
    (PyValue.none.truthy = false ∧
      prepare_value_for_db ⟨3, "DECIMAL", 2, false⟩ .none = .ok .none) ∧
    ((PyValue.str "").truthy = false ∧
      prepare_value_for_db ⟨3, "DECIMAL", 2, false⟩ (.str "") = .ok (.str "")) ∧
    (prepare_value_for_db ⟨2, "INTEGER", 1, true⟩ (.int 240) = .ok (.int 240) →
      (PyValue.int 240) = (PyValue.int 240)) :=
  ⟨⟨by decide, (prepare_value_falsy_and_integer ⟨3, "DECIMAL", 2, false⟩
      (.int 0)).1 (by decide)⟩,
   ⟨by decide, (prepare_value_falsy_and_integer ⟨3, "DECIMAL", 2, false⟩
      .none).1 (by decide)⟩,
   ⟨by decide, (prepare_value_falsy_and_integer ⟨3, "DECIMAL", 2, false⟩
      (.str "")).1 (by decide)⟩,
   fun h => (prepare_value_falsy_and_integer ⟨2, "INTEGER", 1, true⟩
      (.int 240)).2 rfl (.int 240) h⟩

/-- C4: `after_update` rewrites every stored value below zero to `0` — leaving
non-negative values (and `NULL`s) unchanged — exactly when the column type was
not altered and `number_negative` flipped from true to false; in every other
case it performs no data rewrite. -/
theorem after_update_rewrites_negatives (field old_field : NumberField)
    (altered : Bool) (col : List (Option Dec)) :
    (altered = false → field.number_negative = false →
      old_field.number_negative = true →
      after_update field old_field altered col =
        col.map fun v => v.map fun d => if d.m < 0 then ⟨0, 0⟩ else d) ∧
    (altered = true ∨ field.number_negative = true ∨
      old_field.number_negative = false →
      after_update field old_field altered col = col) := by
  constructor
  · intro h1 h2 h3
    rw [after_update, if_pos ⟨h1, h2, h3⟩]
    refine List.map_congr_left fun v _ => ?_
    cases v with
    | none => rfl
    | some d => by_cases hd : d.m < 0 <;> simp [hd]
  · intro h
    rw [after_update, if_neg]
    rintro ⟨h1, h2, h3⟩
    rcases h with h | h | h <;> simp_all

/-- Witness for C4 on a concrete column: with the flip and no column change
the negatives become zero; with `altered_column = true` nothing changes. -/
theorem after_update_rewrites_negatives_witness :
    after_update ⟨1, "INTEGER", 1, false⟩ ⟨1, "INTEGER", 1, true⟩ false
        [some ⟨-5, 0⟩, some ⟨3, 0⟩, Option.none] =
      [some ⟨0, 0⟩, some ⟨3, 0⟩, Option.none] ∧
    after_update ⟨1, "INTEGER", 1, false⟩ ⟨1, "INTEGER", 1, true⟩ true
        [some ⟨-5, 0⟩] = [some ⟨-5, 0⟩] := by
  constructor
  · rw [(after_update_rewrites_negatives ⟨1, "INTEGER", 1, false⟩
      ⟨1, "INTEGER", 1, true⟩ false
      [some ⟨-5, 0⟩, some ⟨3, 0⟩, Option.none]).1 rfl rfl rfl]
    decide
  · exact (after_update_rewrites_negatives ⟨1, "INTEGER", 1, false⟩
      ⟨1, "INTEGER", 1, true⟩ true [some ⟨-5, 0⟩]).2 (Or.inl rfl)

/-- C5: `register` raises the already-registered exception exactly when an
instance with the same type tag is present (and inserts nothing in that case,
returning no new registry); `get` raises the does-not-exist exception exactly
when no instance carries the tag, and otherwise returns the registered
instance for that tag. -/
theorem registry_register_get (r : Registry) (inst : RegInstance)
    (tag : String) (i : RegInstance) :
    (r.register inst = .error .alreadyRegistered ↔
      ∃ j, r.registry.lookup inst.type = some j) ∧
    (∀ r2, r.register inst = .ok r2 →
      r.registry.lookup inst.type = Option.none ∧
      r2.registry = r.registry ++ [(inst.type, inst)]) ∧
    (r.get tag = .error .doesNotExist ↔ r.registry.lookup tag = Option.none) ∧
    (r.get tag = .ok i ↔ r.registry.lookup tag = some i) := by
  refine ⟨?_, ?_, ?_, ?_⟩
  · unfold Registry.register
    rcases h : r.registry.lookup inst.type with _ | j <;> simp [h]
  · intro r2
    unfold Registry.register
    rcases h : r.registry.lookup inst.type with _ | j <;> simp [h]
    intro hr2
    rw [← hr2]
  · unfold Registry.get
    rcases h : r.registry.lookup tag with _ | j <;> simp [h]
  · unfold Registry.get
    rcases h : r.registry.lookup tag with _ | j <;> simp [h]

/-- Witness for C5 on a concrete registry holding the `text` field type:
re-registering the tag fails, getting it returns the stored instance, and
getting an absent tag fails. -/
theorem registry_register_get_witness :
    Registry.register ⟨[("text", ⟨"text", 5⟩)]⟩ ⟨"text", 9⟩ =
      .error .alreadyRegistered ∧
    Registry.get ⟨[("text", ⟨"text", 5⟩)]⟩ "text" = .ok ⟨"text", 5⟩ ∧
    Registry.get ⟨[("text", ⟨"text", 5⟩)]⟩ "number" = .error .doesNotExist :=
  ⟨(registry_register_get ⟨[("text", ⟨"text", 5⟩)]⟩ ⟨"text", 9⟩ "text"
      ⟨"text", 5⟩).1.mpr ⟨⟨"text", 5⟩, by decide⟩,
   (registry_register_get ⟨[("text", ⟨"text", 5⟩)]⟩ ⟨"text", 9⟩ "text"
      ⟨"text", 5⟩).2.2.2.mpr (by decide),
   (registry_register_get ⟨[("text", ⟨"text", 5⟩)]⟩ ⟨"text", 9⟩ "number"
      ⟨"text", 5⟩).2.2.1.mpr (by decide)⟩

/-- C10 counterexample: `NumberField.save` checks membership of `number_type`
in each `(value, label)` choice pair, so the display label `"Integer"` — which
is neither `INTEGER` nor `DECIMAL` — is accepted without a `ValueError`,
refuting the claim that save raises whenever `number_type` is not one of
`INTEGER` or `DECIMAL`. -/
theorem numberfield_save_accepts_label :
    NumberField.save ⟨1, "Integer", 2, false⟩ = .ok ⟨1, "Integer", 2, false⟩ ∧
    "Integer" ≠ NUMBER_TYPE_INTEGER ∧ "Integer" ≠ NUMBER_TYPE_DECIMAL := by
  decide

/-- C10 (amended): `save` raises a `ValueError` exactly when `number_type` is
none of the four strings `INTEGER`, `Integer`, `DECIMAL`, `Decimal` (the
stored values and display labels of the choice pairs) or
`number_decimal_places` is not one of 1–5; otherwise it persists the field
unchanged, so every persisted `NumberField` has a decimal-places setting
between 1 and 5 inclusive. -/
theorem numberfield_save_spec (f : NumberField) :
    (f.save = .ok f ↔
      ((f.number_type = "INTEGER" ∨ f.number_type = "Integer" ∨
        f.number_type = "DECIMAL" ∨ f.number_type = "Decimal") ∧
       (f.number_decimal_places = 1 ∨ f.number_decimal_places = 2 ∨
        f.number_decimal_places = 3 ∨ f.number_decimal_places = 4 ∨
        f.number_decimal_places = 5))) ∧
    (∀ g, f.save = .ok g → g = f) ∧
    (∀ g, f.save = .ok g →
      1 ≤ g.number_decimal_places ∧ g.number_decimal_places ≤ 5) := by
  have hiff : ∀ g, f.save = .ok g ↔
      (g = f ∧
       (f.number_type = "INTEGER" ∨ f.number_type = "Integer" ∨
        f.number_type = "DECIMAL" ∨ f.number_type = "Decimal") ∧
       (f.number_decimal_places = 1 ∨ f.number_decimal_places = 2 ∨
        f.number_decimal_places = 3 ∨ f.number_decimal_places = 4 ∨
        f.number_decimal_places = 5)) := by
    intro g
    unfold NumberField.save
    simp only [NUMBER_TYPE_CHOICES, NUMBER_DECIMAL_PLACES_CHOICES,
      List.any_cons, List.any_nil, Bool.or_false, decide_eq_true_eq,
      Bool.or_eq_true]
    split_ifs with h1 h2
    · constructor
      · intro h
        have hg : f = g := by simpa using h
        exact ⟨hg.symm, by tauto, by tauto⟩
      · rintro ⟨rfl, _, _⟩; rfl
    · constructor
      · intro h; exact absurd h (by simp)
      · rintro ⟨_, _, hp⟩; exact absurd (by tauto) h2
    · constructor
      · intro h; exact absurd h (by simp)
      · rintro ⟨_, ht, _⟩; exact absurd (by tauto) h1
  refine ⟨?_, ?_, ?_⟩
  · rw [hiff f]
    tauto
  · intro g h
    exact ((hiff g).mp h).1
  · intro g h
    obtain ⟨rfl, _, hp⟩ := (hiff g).mp h
    omega

/-- Witness for C10 (amended) at the `Price` field options. -/
theorem numberfield_save_spec_witness :
    NumberField.save ⟨3, "DECIMAL", 2, false⟩ = .ok ⟨3, "DECIMAL", 2, false⟩ ∧
    (1 ≤ (2 : Int) ∧ (2 : Int) ≤ 5) :=
  ⟨(numberfield_save_spec ⟨3, "DECIMAL", 2, false⟩).1.mpr
      (by exact ⟨by tauto, by tauto⟩),
   (numberfield_save_spec ⟨3, "DECIMAL", 2, false⟩).2.2 ⟨3, "DECIMAL", 2, false⟩
      ((numberfield_save_spec ⟨3, "DECIMAL", 2, false⟩).1.mpr
        (by exact ⟨by tauto, by tauto⟩))⟩

/-- `Nat.digitChar` is injective below the base 10. -/
theorem digitChar_inj_lt : ∀ a, a < 10 → ∀ b, b < 10 →
    Nat.digitChar a = Nat.digitChar b → a = b := by decide

/-- Mapping `Nat.digitChar` over digit lists (entries below 10) is injective. -/
theorem map_digitChar_inj : ∀ l1 l2 : List Nat, (∀ d ∈ l1, d < 10) →
    (∀ d ∈ l2, d < 10) → l1.map Nat.digitChar = l2.map Nat.digitChar →
    l1 = l2 := by
  intro l1
  induction l1 with
  | nil => intro l2 _ _ h; cases l2 <;> simp_all
  | cons a t ih =>
    intro l2 h1 h2 h
    cases l2 with
    | nil => simp_all
    | cons b t2 =>
      simp only [List.map_cons, List.cons.injEq] at h
      have hab := digitChar_inj_lt a (h1 a (by simp)) b (h2 b (by simp)) h.1
      subst hab
      have ht := ih t2 (fun d hd => h1 d (by simp [hd]))
        (fun d hd => h2 d (by simp [hd])) h.2
      rw [ht]

/-- The decimal rendering of a positive number is never the rendering of 0. -/
theorem decimalChars_ne_singleton_zero {n : Nat} (hn : n ≠ 0) :
    decimalChars n ≠ ['0'] := by
  intro h
  rw [decimalChars, if_neg hn] at h
  have h2 : (Nat.digits 10 n).map Nat.digitChar = ['0'] := by
    have := congrArg List.reverse h
    simpa using this
  have h3 : Nat.digits 10 n = [0] :=
    map_digitChar_inj _ [0]
      (fun d hd => Nat.digits_lt_base (by norm_num) hd)
      (by simp) h2
  have h5 := Nat.ofDigits_digits 10 n
  rw [h3] at h5
  simp [Nat.ofDigits] at h5
  exact hn h5.symm

/-- The decimal rendering of a natural number is injective. -/
theorem decimalChars_inj {m n : Nat} (h : decimalChars m = decimalChars n) :
    m = n := by
  by_cases hm : m = 0 <;> by_cases hn : n = 0
  · rw [hm, hn]
  · exact absurd h.symm (by rw [hm, decimalChars]; simpa using
      decimalChars_ne_singleton_zero hn)
  · exact absurd h (by rw [hn, decimalChars]; simpa using
      decimalChars_ne_singleton_zero hm)
  · rw [decimalChars, if_neg hm, decimalChars, if_neg hn] at h
    have h2 := congrArg List.reverse h
    simp only [List.reverse_reverse] at h2
    exact Nat.digits_inj_iff.mp (map_digitChar_inj _ _
      (fun d hd => Nat.digits_lt_base (by norm_num) hd)
      (fun d hd => Nat.digits_lt_base (by norm_num) hd) h2)

/-- C8: every field's physical column name is `field_<id>` — derived from the
id alone, whatever the field's content type or name — and two fields with
distinct ids never share a physical column name. -/
theorem db_column_unique (f g : Field) :
    f.db_column = ⟨"field_".data ++ decimalChars f.id⟩ ∧
    (f.id ≠ g.id → f.db_column ≠ g.db_column) := by
  refine ⟨rfl, fun hne hc => hne ?_⟩
  have h2 : "field_".data ++ decimalChars f.id =
      "field_".data ++ decimalChars g.id := congrArg String.data hc
  exact decimalChars_inj (List.append_cancel_left h2)

/-- Witness for C8: two concrete fields of different types with ids 1 and 2
get the distinct columns `field_1` and `field_2`. -/
theorem db_column_unique_witness :
    (1 : Nat) ≠ 2 ∧
    Field.db_column ⟨1, 1, "Name", "text"⟩ ≠
      Field.db_column ⟨2, 1, "Price", "number"⟩ :=
  ⟨by decide,
    (db_column_unique ⟨1, 1, "Name", "text"⟩ ⟨2, 1, "Price", "number"⟩).2
      (by decide)⟩

/-- The exact value of the IEEE double produced by the Python literal
`59999.99`, namely `8246335833930465 / 2 ^ 37`, written over denominator
`10 ^ 37`. -/
def double_59999_99 : Dec := ⟨8246335833930465 * 5 ^ 37, 37⟩

/-- The exact value of the IEEE double produced by the Python literal
`-10.22`, namely `-5753348523965809 / 2 ^ 49`, over denominator `10 ^ 49`. -/
def double_neg_10_22 : Dec := ⟨-5753348523965809 * 5 ^ 49, 49⟩

/-- C7: on a `DECIMAL(2)` non-negative field, creating a row with value
`-10.22` raises a `ValidationError` (so nothing is persisted), while creating
a row with the float `59999.99` persists exactly the decimal `59999.99`: the
raw float is coerced to an exact `Decimal` during validation and the
fixed-point quantization of the column recovers `59999.99` although the
float's own value drifts from it. -/
theorem create_row_price_values :
    create_row_number_value ⟨3, "DECIMAL", 2, false⟩ (.float double_neg_10_22) =
      .error (.validationError (negativeMsg 3)) ∧
    create_row_number_value ⟨3, "DECIMAL", 2, false⟩ (.dec ⟨-1022, 2⟩) =
      .error (.validationError (negativeMsg 3)) ∧
    create_row_number_value ⟨3, "DECIMAL", 2, false⟩ (.float double_59999_99) =
      .ok (some ⟨5999999, 2⟩) ∧
    Dec.toRat ⟨5999999, 2⟩ = (59999.99 : ℚ) ∧
    Dec.toRat double_59999_99 ≠ (59999.99 : ℚ) := by
  refine ⟨by decide, by decide, by decide, ?_, ?_⟩
  · norm_num [Dec.toRat]
  · norm_num [Dec.toRat, double_59999_99]

/-- Every member of a row-order list is at most the `Max` aggregate. -/
theorem le_max_order (rows : List Int) : ∀ r ∈ rows, r ≤ max_order rows := by
  induction rows with
  | nil => simp
  | cons a t ih =>
    intro r hr
    have hmax : max_order (a :: t) = max a (max_order t) := rfl
    rcases List.mem_cons.mp hr with h | h
    · rw [hmax, h]; exact le_max_left _ _
    · exact le_trans (ih r h) (by rw [hmax]; exact le_max_right _ _)

/-- Rounding up to a whole order unit never decreases the value. -/
theorem le_ceilUnit (n : Int) : n ≤ ceilUnit n := by
  have hu : (0 : Int) < orderUnit := by norm_num [orderUnit]
  unfold ceilUnit floorUnit
  rw [Int.fdiv_eq_ediv _ hu.le, mul_comm]
  have h := Int.ediv_mul_le (-n) hu.ne'
  linarith

/-- C2 counterexample, from the final steps of `test_create_row`: with orders
`{1.000…0, 1.999…9}` (the table right after the row with order `2.000…0` was
deleted) `append` returns `3.000…0`, not `max + 10 ^ (-20) · 10 ^ 20 =
2.999…9`; and on the table `{1.000…0}` left by deleting the row with order
`2.000…0` from `{1.000…0, 2.000…0}`, `append` returns exactly `2.000…0` — the
deleted row's order is reused. -/
theorem append_order_counterexample :
    append_order [orderUnit, 2 * orderUnit - 1] = 3 * orderUnit ∧
    3 * orderUnit ≠ (2 * orderUnit - 1) + orderUnit ∧
    append_order [orderUnit] = 2 * orderUnit := by decide

/-- C2 (amended): `append` returns order `1` on an empty table and
`ceil(max(existing orders)) + 1` otherwise; the result is strictly greater
than every existing order (so no remaining order is reused), though it can
coincide with a previously deleted row's order. -/
theorem append_order_spec (rows : List Int) :
    append_order [] = orderUnit ∧
    append_order rows = ceilUnit (max_order rows) + orderUnit ∧
    ∀ r ∈ rows, r < append_order rows := by
  refine ⟨by decide, rfl, fun r hr => ?_⟩
  have h1 := le_max_order rows r hr
  have h2 := le_ceilUnit (max_order rows)
  have hu : (0 : Int) < orderUnit := by norm_num [orderUnit]
  unfold append_order
  linarith

/-- Witness for C2 (amended): appending to the table `{1.000…0}` gives an
order above the single existing row. -/
theorem append_order_spec_witness :
    orderUnit ∈ [orderUnit] ∧ orderUnit < append_order [orderUnit] :=
  ⟨by decide, (append_order_spec [orderUnit]).2.2 orderUnit (by decide)⟩

/-- C1 counterexample, from `test_create_row`: inserting before the row with
order `2.000…0` in the table `{1.000…0, 2.000…0}` yields `1.999…9`, not the
scale-20 midpoint `1.5` of the target and its predecessor; and inserting
before the first row (order `1.000…0`) yields `0.999…9`, not
`target.order - 1`. -/
theorem insert_before_counterexample :
    insert_before_table [orderUnit, 2 * orderUnit] (2 * orderUnit) =
      [orderUnit, 2 * orderUnit, 2 * orderUnit - 1] ∧
    2 * orderUnit - 1 ≠ (orderUnit + 2 * orderUnit) / 2 ∧
    insert_before_table [orderUnit, 2 * orderUnit] orderUnit =
      [orderUnit, 2 * orderUnit, orderUnit - 1] ∧
    orderUnit - 1 ≠ orderUnit - orderUnit := by decide

/-- Dropping one last-place unit from a whole order lands in the preceding
whole-unit window. -/
theorem floorUnit_pred {t : Int} (ht : orderUnit ∣ t) :
    floorUnit (t - 1) = t - orderUnit := by
  obtain ⟨k, rfl⟩ := ht
  have hu : (0 : Int) < orderUnit := by norm_num [orderUnit]
  unfold floorUnit
  rw [Int.fdiv_eq_ediv _ hu.le]
  have h1 : orderUnit * k - 1 = (orderUnit - 1) + (k - 1) * orderUnit := by
    ring
  rw [h1, Int.add_mul_ediv_right _ _ hu.ne',
    Int.ediv_eq_zero_of_lt (by omega) (by omega)]
  ring

/-- C1 (amended): `insertBefore(target)` always returns
`target.order - 10 ^ (-20)` — also when the target is the first row — while
the rows already sitting in `(floor(new), new]` are simultaneously pushed down
one unit in the last place. Hence `n` successive inserts before a target with
a whole order `t` (in a table with no order strictly between `t - 1` and `t`)
leave the original rows untouched and occupy
`t - n·10 ^ (-20), …, t - 10 ^ (-20)`: the gap shrinks by one unit in the
last place per insert, which is a fixed-step countdown, not repeated
halving. -/
theorem insert_before_iter_spec (rows : List Int) (t : Int) (n : Nat)
    (ht : orderUnit ∣ t)
    (hrows : ∀ r ∈ rows, r ≤ t - orderUnit ∨ t ≤ r)
    (hn : (n : Int) ≤ orderUnit) :
    insert_before_iter rows t n =
      rows ++ (List.range n).map fun (i : Nat) => t - (n : Int) + (i : Int) := by
  induction n with
  | zero => simp [insert_before_iter]
  | succ k ih =>
    have hu : (0 : Int) < orderUnit := by norm_num [orderUnit]
    have hk : (k : Int) ≤ orderUnit := by push_cast at hn ⊢; omega
    have hkstrict : (k : Int) < orderUnit := by push_cast at hn ⊢; omega
    have hfl : floorUnit (t - 1) = t - orderUnit := floorUnit_pred ht
    have hmap1 :
        rows.map (insert_before_shift (insert_before_new_order t)) = rows := by
      have hid : ∀ r ∈ rows,
          insert_before_shift (insert_before_new_order t) r = id r := by
        intro r hr
        simp only [insert_before_shift, insert_before_new_order, hfl, id]
        rw [if_neg]
        rcases hrows r hr with h | h <;> omega
      rw [List.map_congr_left hid, List.map_id]
    have hmap2 :
        ((List.range k).map fun (i : Nat) => t - (k : Int) + (i : Int)).map
          (insert_before_shift (insert_before_new_order t)) =
        (List.range k).map fun (i : Nat) => t - ((k + 1 : Nat) : Int) + (i : Int) := by
      rw [List.map_map]
      refine List.map_congr_left fun i hi => ?_
      have hik : i < k := List.mem_range.mp hi
      simp only [Function.comp, insert_before_shift, insert_before_new_order,
        hfl]
      rw [if_pos]
      · push_cast
        ring
      · constructor
        · have : (i : Int) < (k : Int) := by exact_mod_cast hik
          omega
        · have : (i : Int) < (k : Int) := by exact_mod_cast hik
          omega
    rw [insert_before_iter, ih hk]
    unfold insert_before_table
    rw [List.map_append, hmap1, hmap2, List.range_succ, List.map_append]
    have hlast : (t - ((k + 1 : Nat) : Int) + (k : Int)) =
        insert_before_new_order t := by
      unfold insert_before_new_order
      push_cast
      ring
    simp [hlast, List.append_assoc]
    unfold insert_before_new_order
    ring

/-- Witness for C1 (amended): two successive inserts before the row with
order `2.000…0` in `{1.000…0, 2.000…0}` produce `1.999…8` and `1.999…9`,
matching `test_create_row`. -/
theorem insert_before_iter_spec_witness :
    orderUnit ∣ 2 * orderUnit ∧
    (∀ r ∈ [orderUnit, 2 * orderUnit],
      r ≤ 2 * orderUnit - orderUnit ∨ 2 * orderUnit ≤ r) ∧
    ((2 : Nat) : Int) ≤ orderUnit ∧
    insert_before_iter [orderUnit, 2 * orderUnit] (2 * orderUnit) 2 =
      [orderUnit, 2 * orderUnit] ++
        (List.range 2).map
          fun (i : Nat) => 2 * orderUnit - ((2 : Nat) : Int) + (i : Int) :=
  ⟨⟨2, by ring⟩, by decide, by decide,
    insert_before_iter_spec [orderUnit, 2 * orderUnit] (2 * orderUnit) 2
      ⟨2, by ring⟩ (by decide) (by decide)⟩

/-- C6: the include/exclude resolution returns the no-restriction sentinel
exactly when both parameters are missing or empty; otherwise it returns the
table's fields restricted to the include tokens (all of them when `include` is
empty) minus the exclude tokens, membership being decided by the ids the
tokens carry — so tokens that are unknown or belong to another table simply
select nothing, without error. -/
theorem get_include_exclude_fields_spec (fs : List Field)
    (inc exc : Option String) (l : List Field) (f : Field) :
    (get_include_exclude_fields fs inc exc = Option.none ↔
      (emptyParam inc = true ∧ emptyParam exc = true)) ∧
    (get_include_exclude_fields fs inc exc = some l →
      (f ∈ l ↔ f ∈ fs ∧
        (emptyParam inc = true ∨ f.id ∈ extract_field_ids_from_string inc) ∧
        f.id ∉ extract_field_ids_from_string exc)) := by
  unfold get_include_exclude_fields
  by_cases h : emptyParam inc = true ∧ emptyParam exc = true
  · rw [if_pos h]
    exact ⟨by simp [h], by simp⟩
  · rw [if_neg h]
    refine ⟨⟨fun hnone => by simp at hnone, fun hboth => absurd hboth h⟩,
      fun hl => ?_⟩
    have hl2 : ((if emptyParam inc = true then fs
        else fs.filter fun g => g.id ∈ extract_field_ids_from_string inc).filter
          fun g => g.id ∉ extract_field_ids_from_string exc) = l := by
      simpa using hl
    rw [← hl2]
    by_cases hinc : emptyParam inc = true
    · simp [hinc, List.mem_filter]
    · simp [hinc, List.mem_filter]
      tauto

/-- Witness for C6 at the `test_get_include_exclude_fields` scenario: on a
table with fields 1 and 2, `include="field_1,field_9999"` resolves to exactly
field 1 and the characterization confirms field 1's membership. -/
theorem get_include_exclude_fields_spec_witness :
    get_include_exclude_fields [⟨1, 1, "a", "text"⟩, ⟨2, 1, "b", "text"⟩]
        (some "field_1,field_9999") Option.none =
      some [⟨1, 1, "a", "text"⟩] ∧
    ((⟨1, 1, "a", "text"⟩ : Field) ∈ [(⟨1, 1, "a", "text"⟩ : Field)] ↔
      (⟨1, 1, "a", "text"⟩ : Field) ∈
          [(⟨1, 1, "a", "text"⟩ : Field), ⟨2, 1, "b", "text"⟩] ∧
        (emptyParam (some "field_1,field_9999") = true ∨
          (1 : Nat) ∈ extract_field_ids_from_string (some "field_1,field_9999")) ∧
        (1 : Nat) ∉ extract_field_ids_from_string Option.none) :=
  ⟨by decide,
    (get_include_exclude_fields_spec
      [⟨1, 1, "a", "text"⟩, ⟨2, 1, "b", "text"⟩] (some "field_1,field_9999")
      Option.none [⟨1, 1, "a", "text"⟩] ⟨1, 1, "a", "text"⟩).2 (by decide)⟩

end Baserow
